import Mathlib

/-
Verification development for the ai-news-agent backend.

Python dictionaries are embedded as association lists of string keys and
JSON values; a lookup takes the rightmost binding, so that appending a
binding models item assignment and double-splat merging.  Machine strings
are embedded as Lean strings or as lists of characters.  The claims below
concern backend/agent/nodes/validators.py, backend/agent/nodes/cross_ref.py,
backend/agent/nodes/digest.py, backend/agent/database.py and
backend/server.py.
-/

/-- JSON values in the fragment exchanged by this backend: objects, arrays,
escape-free strings, integer numerals, booleans and null. -/
inductive Js where
  | null
  | bool (b : Bool)
  | num (n : Int)
  | str (s : String)
  | arr (l : List Js)
  | obj (l : List (String × Js))

/-- A Python dictionary with string keys, embedded as an association list.
Lookups take the rightmost binding. -/
abbrev Dict := List (String × Js)

/-- Python dictionary lookup, "d.get(k)": the rightmost binding for the key. -/
def dget (d : Dict) (k : String) : Option Js :=
  (d.reverse.find? (fun p => p.1 == k)).map Prod.snd

/-- Python "d.get(k, default)". -/
def dgetD (d : Dict) (k : String) (dflt : Js) : Js :=
  (dget d k).getD dflt

/-- Python item assignment "d[k] = v", observed through `dget`. -/
def dset (d : Dict) (k : String) (v : Js) : Dict :=
  d ++ [(k, v)]

/-- Python double-splat merge of parsed fields onto a dictionary, observed
through `dget`: the second argument overrides the first. -/
def pyMerge (a : Dict) (b : List (String × Js)) : Dict :=
  a ++ b

/-- Python truthiness of a JSON value. -/
def pyTruthy : Js → Bool
  | Js.null => false
  | Js.bool b => b
  | Js.num n => n != 0
  | Js.str s => s != ""
  | Js.arr l => !l.isEmpty
  | Js.obj l => !l.isEmpty

/-- Truthiness of an optional value, as Python sees "d.get(k)". -/
def pyTruthyO : Option Js → Bool
  | none => false
  | some v => pyTruthy v

/-- Whether a JSON value equals a given Python string. -/
def isStr (v : Js) (s : String) : Bool :=
  match v with
  | Js.str t => t == s
  | _ => false

/-- String-typed lookup with a default; the pipeline keeps these fields
string-typed, and the Python code would raise on other types. -/
def dgetStrD (d : Dict) (k : String) (dflt : String) : String :=
  match dget d k with
  | some (Js.str s) => s
  | _ => dflt

/-- Integer-typed lookup with a default; the pipeline keeps scores
integer-typed, and the Python code would raise on other types. -/
def dgetNumD (d : Dict) (k : String) (dflt : Int) : Int :=
  match dget d k with
  | some (Js.num n) => n
  | _ => dflt

/-- The whitespace characters stripped by Python str.strip (ASCII range). -/
def pyIsSpace (c : Char) : Bool :=
  c == ' ' || c == '\t' || c == '\n' || c == '\r' || c == '\x0b' || c == '\x0c'

/-- Python str.strip on a character list. -/
def pyStrip (l : List Char) : List Char :=
  ((l.dropWhile pyIsSpace).reverse.dropWhile pyIsSpace).reverse

/-- Python str.strip on a string. -/
def pyStripStr (s : String) : String :=
  String.mk (pyStrip s.data)

/-- Python str.lower (ASCII case folding, which covers the domains used). -/
def pyLower (s : String) : String :=
  String.mk (s.data.map Char.toLower)

/-- Whether the pattern is a leading segment of the list. -/
def listStarts : List Char → List Char → Bool
  | [], _ => true
  | _ :: _, [] => false
  | p :: ps, c :: cs => p == c && listStarts ps cs

/-- Whether the pattern occurs contiguously inside the list. -/
def listHasSub (pat : List Char) (l : List Char) : Bool :=
  match l with
  | [] => listStarts pat []
  | _ :: rest => listStarts pat l || listHasSub pat rest

/-- Python substring membership "needle in hay". -/
def containsSub (needle hay : String) : Bool :=
  listHasSub needle.data hay.data

/-- An opening curly bracket. -/
def lbrace : Char := Char.ofNat 123

/-- A closing curly bracket. -/
def rbrace : Char := Char.ofNat 125

/-- A double quote. -/
def dq : Char := Char.ofNat 34

/- ------------------------------------------------------------------
backend/agent/nodes/validators.py : rule-based fallback
------------------------------------------------------------------ -/

/-- The allow-list OFFICIAL of validators.py. -/
def OFFICIAL : List String :=
  ["rbi.org.in", "pib.gov.in", "arxiv.org", "huggingface.co",
   "incometax.gov.in", "hdfcbank.com", "sbi.co.in", "icicibank.com",
   "axisbank.com", "indiabudget.gov.in", "telangana.gov.in",
   "github.com"]

/-- The allow-list NEWS of validators.py. -/
def NEWS : List String :=
  ["economictimes.com", "moneycontrol.com", "livemint.com", "thehindu.com",
   "ndtv.com", "techcrunch.com", "venturebeat.com", "indianexpress.com",
   "bankbazaar.com", "cardinsider.com", "paisabazaar.com"]

/-- The allow-list COMMUNITY of validators.py. -/
def COMMUNITY : List String :=
  ["news.ycombinator.com", "reddit.com", "twitter.com", "x.com"]

/-- The keyword list CC_UPI_KW of validators.py. -/
def CC_UPI_KW : List String :=
  ["upi", "credit card", "cashback", "reward", "offer", "discount", "hdfc card",
   "icici card", "axis card", "amex", "sbi card", "rupay", "paytm", "amazon pay",
   "card launch", "card benefit", "milestone benefit", "lounge access", "emi offer",
   "zero fee", "surcharge waiver", "bonus points", "spend-based", "welcome bonus",
   "annual fee waiver", "gpay", "phonepe", "bhim", "credit limit"]

/-- Model of the regular-expression substitution collapsing every maximal
whitespace run into a single space. -/
def squeezeWs : List Char → List Char
  | [] => []
  | [c] => [if pyIsSpace c then ' ' else c]
  | c1 :: c2 :: rest =>
    if pyIsSpace c1 && pyIsSpace c2 then squeezeWs (c2 :: rest)
    else (if pyIsSpace c1 then ' ' else c1) :: squeezeWs (c2 :: rest)

/-- A sentence-ending punctuation character. -/
def sentEnd (c : Char) : Bool :=
  c == '.' || c == '!' || c == '?'

/-- Model of the sentence split (after whitespace was collapsed, the
separators are single spaces preceded by sentence punctuation). -/
def splitSentences : List Char → List (List Char)
  | [] => [[]]
  | [c] => [[c]]
  | c1 :: c2 :: rest =>
    if sentEnd c1 && c2 == ' ' then [c1] :: splitSentences rest
    else
      match splitSentences (c2 :: rest) with
      | s :: ss => (c1 :: s) :: ss
      | [] => [[c1]]

/-- extract_summary of validators.py: first meaningful sentences of the
content, joined and truncated to 400 characters. -/
def extract_summary (content : String) : String :=
  if content == "" || (pyStrip content.data).length < 50 then ""
  else
    let cs := pyStrip (squeezeWs content.data)
    let sentences := splitSentences cs
    let good := (sentences.map (fun s => pyStrip s)).filter (fun s => s.length > 30)
    String.mk ((List.intercalate [' '] (good.take 3)).take 400)

/-- is_cc_upi_relevant of validators.py. -/
def is_cc_upi_relevant (a : Dict) : Bool :=
  let text := pyLower (dgetStrD a "title" "" ++ " " ++ dgetStrD a "content" "")
  CC_UPI_KW.any (fun kw => containsSub kw text)

/-- rule_based of validators.py: domain-tier validation used when the
classification service is unconfigured or fails. -/
def rule_based (a : Dict) : Dict :=
  let domain := pyLower (dgetStrD a "source_domain" "")
  let summary := extract_summary (dgetStrD a "content" "")
  let why : Option String :=
    if isStr (dgetD a "category" Js.null) "finance" && is_cc_upi_relevant a then
      some "Relevant to your UPI/credit card rewards — check if actionable."
    else none
  if OFFICIAL.any (fun d => containsSub d domain) then
    a ++ [("validation_status", Js.str "verified"),
          ("credibility_score", Js.num 92),
          ("reasoning", Js.str ("Official source: " ++ domain)),
          ("is_actionable", Js.bool true),
          ("why_it_matters", Js.str (why.getD "Actionable update from official body.")),
          ("needs_cross_reference", Js.bool false),
          ("summary", Js.str summary)]
  else if NEWS.any (fun d => containsSub d domain) then
    a ++ [("validation_status", Js.str "unverified"),
          ("credibility_score", Js.num 72),
          ("reasoning", Js.str ("Established news outlet: " ++ domain)),
          ("is_actionable", Js.bool true),
          ("why_it_matters", Js.str (why.getD "Stay informed; verify before acting.")),
          ("needs_cross_reference", Js.bool true),
          ("summary", Js.str summary)]
  else if COMMUNITY.any (fun d => containsSub d domain) then
    a ++ [("validation_status", Js.str "unverified"),
          ("credibility_score", Js.num 45),
          ("reasoning", Js.str ("Community source: " ++ domain)),
          ("is_actionable", Js.bool false),
          ("why_it_matters", Js.null),
          ("needs_cross_reference", Js.bool true),
          ("summary", Js.str summary)]
  else
    a ++ [("validation_status", Js.str "unverified"),
          ("credibility_score", Js.num 55),
          ("reasoning", Js.str ("Unknown/aggregator source: " ++ domain)),
          ("is_actionable", Js.bool true),
          ("why_it_matters", Js.str (why.getD "Verify from primary sources.")),
          ("needs_cross_reference", Js.bool true),
          ("summary", Js.str summary)]

/- ------------------------------------------------------------------
backend/agent/nodes/validators.py : tolerant JSON extraction and the
single-article validator
------------------------------------------------------------------ -/

/-- The whitespace accepted between JSON tokens. -/
def jsonWsChar (c : Char) : Bool :=
  c == ' ' || c == '\t' || c == '\n' || c == '\r'

/-- Skip JSON whitespace. -/
def skipWs (l : List Char) : List Char :=
  l.dropWhile jsonWsChar

/-- Lex a JSON string literal (escape-free fragment). -/
def parseStringTok (l : List Char) : Option (String × List Char) :=
  match l with
  | [] => none
  | c :: rest =>
    if c = dq then
      let content := rest.takeWhile (fun x => x != dq && x != '\\')
      match rest.drop content.length with
      | c2 :: rest3 => if c2 = dq then some (String.mk content, rest3) else none
      | [] => none
    else none

/-- Numeric value of a decimal digit list. -/
def natOfDigits (ds : List Char) : Nat :=
  ds.foldl (fun acc c => acc * 10 + (c.toNat - 48)) 0

/-- Lex a JSON integer numeral. -/
def parseIntTok (l : List Char) : Option (Int × List Char) :=
  match l with
  | [] => none
  | c :: rest =>
    if c = '-' then
      let ds := rest.takeWhile Char.isDigit
      if ds.isEmpty then none
      else some (-(natOfDigits ds : Int), rest.drop ds.length)
    else
      let ds := l.takeWhile Char.isDigit
      if ds.isEmpty then none
      else some ((natOfDigits ds : Int), l.drop ds.length)

mutual

/-- Fuel-indexed recursive-descent parser for a JSON value; models
json.loads on the fragment this backend exchanges. -/
def parseVal : Nat → List Char → Option (Js × List Char)
  | 0, _ => none
  | fuel+1, l =>
    match skipWs l with
    | [] => none
    | c :: rest =>
      if c = lbrace then
        match skipWs rest with
        | c2 :: rest2 =>
          if c2 = rbrace then some (Js.obj [], rest2)
          else parseMembers fuel (c2 :: rest2) []
        | [] => none
      else if c = '[' then
        match skipWs rest with
        | c2 :: rest2 =>
          if c2 = ']' then some (Js.arr [], rest2)
          else parseItems fuel (c2 :: rest2) []
        | [] => none
      else if c = dq then (parseStringTok (c :: rest)).map (fun p => (Js.str p.1, p.2))
      else if (c :: rest).take 4 == "true".data then some (Js.bool true, (c :: rest).drop 4)
      else if (c :: rest).take 5 == "false".data then some (Js.bool false, (c :: rest).drop 5)
      else if (c :: rest).take 4 == "null".data then some (Js.null, (c :: rest).drop 4)
      else (parseIntTok (c :: rest)).map (fun p => (Js.num p.1, p.2))

/-- Parse the members of a JSON object after the opening bracket. -/
def parseMembers : Nat → List Char → List (String × Js) → Option (Js × List Char)
  | 0, _, _ => none
  | fuel+1, l, acc =>
    match parseStringTok (skipWs l) with
    | none => none
    | some (k, r1) =>
      match skipWs r1 with
      | [] => none
      | c :: r2 =>
        if c = ':' then
          match parseVal fuel r2 with
          | none => none
          | some (v, r3) =>
            match skipWs r3 with
            | [] => none
            | c2 :: r4 =>
              if c2 = ',' then parseMembers fuel r4 (acc ++ [(k, v)])
              else if c2 = rbrace then some (Js.obj (acc ++ [(k, v)]), r4)
              else none
        else none

/-- Parse the items of a JSON array after the opening bracket. -/
def parseItems : Nat → List Char → List Js → Option (Js × List Char)
  | 0, _, _ => none
  | fuel+1, l, acc =>
    match parseVal fuel l with
    | none => none
    | some (v, r1) =>
      match skipWs r1 with
      | [] => none
      | c :: r2 =>
        if c = ',' then parseItems fuel r2 (acc ++ [v])
        else if c = ']' then some (Js.arr (acc ++ [v]), r2)
        else none

end

/-- json.loads: strict parse of the whole text (the nesting depth of a
value is bounded by its length, so the fuel below suffices). -/
def json_loads (s : String) : Option Js :=
  match parseVal (s.data.length + 2) s.data with
  | some (v, rest) => if skipWs rest = [] then some v else none
  | none => none

/-- Scan for the characters up to a closing bracket, failing on a nested
opening bracket; the tail of a match of the brace regular expression. -/
def scanFlat : List Char → Option (List Char)
  | [] => none
  | c :: rest =>
    if c = rbrace then some []
    else if c = lbrace then none
    else (scanFlat rest).map (fun t => c :: t)

/-- The leftmost match of the brace regular expression of extract_json: the
first bracket-delimited substring containing no nested brackets. -/
def firstFlatBrace : List Char → Option (List Char)
  | [] => none
  | c :: rest =>
    if c = lbrace then
      match scanFlat rest with
      | some inner => some (lbrace :: (inner ++ [rbrace]))
      | none => firstFlatBrace rest
    else firstFlatBrace rest

/-- extract_json of validators.py: strict parse of the stripped reply, then
parse of the first flat brace-delimited substring. -/
def extract_json (text : String) : Option Js :=
  let t := pyStripStr text
  match json_loads t with
  | some v => some v
  | none =>
    match firstFlatBrace t.data with
    | some sub => json_loads (String.mk sub)
    | none => none

/-- validate_one of validators.py, with the transport abstracted: hfToken
says whether the classification service is configured, and resp is the
status code and reply content, none standing for a raised transport error.
A truthy parsed object is merged onto the article; a falsy or non-object
parse, a non-200 status, a missing token or an error all fall back to the
rule-based path. -/
def validate_one (hfToken : Bool) (a : Dict) (resp : Option (Nat × String)) : Dict :=
  if !hfToken then rule_based a
  else
    match resp with
    | none => rule_based a
    | some (status, content) =>
      if status = 200 then
        match extract_json content with
        | some parsed =>
          if pyTruthy parsed then
            match parsed with
            | Js.obj fields => pyMerge a fields
            | _ => rule_based a
          else rule_based a
        | none => rule_based a
      else rule_based a

/- ------------------------------------------------------------------
backend/agent/nodes/cross_ref.py
------------------------------------------------------------------ -/

/-- The MIN_SOURCES_FOR_VERIFIED threshold of cross_ref.py. -/
def MIN_SOURCES_FOR_VERIFIED : Nat := 2

/-- The characters after the scheme separator of an absolute link, if any. -/
def afterSchemeSep : List Char → Option (List Char)
  | [] => none
  | ':' :: '/' :: '/' :: rest => some rest
  | _ :: rest => afterSchemeSep rest

/-- The netloc component of urlparse for the absolute links returned by the
feed: the text after the scheme separator up to the next delimiter. -/
def netloc (link : String) : String :=
  match afterSchemeSep link.data with
  | some rest => String.mk (rest.takeWhile (fun c => c != '/' && c != '?' && c != '#'))
  | none => ""

/-- Python str.replace of every occurrence of "www." by the empty string,
scanning left to right. -/
def removeWww : List Char → List Char
  | 'w' :: 'w' :: 'w' :: '.' :: rest => removeWww rest
  | c :: rest => c :: removeWww rest
  | [] => []

/-- remove all "www." occurrences from a string. -/
def remove_www (s : String) : String :=
  String.mk (removeWww s.data)

/-- count_confirming_sources of cross_ref.py on a fetched feed: the number
of distinct domains among the first fifteen entry links, skipping empty
links and links containing the original domain (the network transport and
the error path returning zero are abstracted into the entries list). -/
def count_confirming_sources (entries : List String) (originalDomain : String) : Nat :=
  ((((entries.take 15).filter
      (fun link => link != "" && !containsSub originalDomain link)).map
    (fun link => remove_www (netloc link))).dedup).length

/-- check_one of cross_ref.py: the mutation applied to one article given
the confirming-source count. -/
def check_one (a : Dict) (count : Nat) : Dict :=
  if MIN_SOURCES_FOR_VERIFIED ≤ count then
    let a1 := dset a "validation_status" (Js.str "verified")
    let a2 := dset a1 "cross_reference_count" (Js.num count)
    let a3 := dset a2 "credibility_score"
      (Js.num (min 100 (dgetNumD a "credibility_score" 60 + 15)))
    dset a3 "reasoning"
      (Js.str (pyStripStr
        (dgetStrD a "reasoning" "" ++ " [" ++ toString count ++ " other sources confirm]")))
  else
    dset a "cross_reference_count" (Js.num count)

/-- The selection of articles entering corroboration in
cross_reference_check. -/
def needs_check (a : Dict) : Bool :=
  pyTruthyO (dget a "needs_cross_reference") &&
  isStr (dgetD a "validation_status" Js.null) "unverified"

/-- cross_reference_check of cross_ref.py on the validated list; entriesFor
abstracts the feed lookup keyed by the article (its title is the query). -/
def cross_reference_check (entriesFor : Dict → List String) (articles : List Dict) :
    List Dict :=
  articles.map (fun a =>
    if needs_check a then
      check_one a (count_confirming_sources (entriesFor a) (dgetStrD a "source_domain" ""))
    else a)

/- ------------------------------------------------------------------
backend/agent/nodes/digest.py
------------------------------------------------------------------ -/

/-- The MAX_DIGEST_ITEMS cap of digest.py. -/
def MAX_DIGEST_ITEMS : Nat := 15

/-- The keyword list CC_UPI_BOOST_KW of digest.py. -/
def CC_UPI_BOOST_KW : List String :=
  ["upi", "credit card", "cashback", "reward", "offer", "hdfc card",
   "icici card", "axis card", "amex", "sbi card", "rupay", "paytm",
   "amazon pay", "gpay", "phonepe", "lounge", "milestone", "emi offer",
   "zero fee", "annual fee", "welcome bonus", "card launch", "card benefit",
   "spend offer", "surcharge", "bonus points"]

/-- cc_upi_boost of digest.py: the 0 to 30 priority boost for finance
articles matching payment keywords. -/
def cc_upi_boost (a : Dict) : Int :=
  if !(isStr (dgetD a "category" Js.null) "finance") then 0
  else
    let text := pyLower (dgetStrD a "title" "" ++ " " ++ dgetStrD a "content" "")
    min (((CC_UPI_BOOST_KW.filter (fun kw => containsSub kw text)).length : Int) * 10) 30

/-- The composite priority used as the sort key in filter_and_build_digest. -/
def digest_key (a : Dict) : Int :=
  dgetNumD a "credibility_score" 0 + cc_upi_boost a

/-- Python list.sort with a key and reverse set: the stable descending sort
by the key, embedded as insertion sort under the corresponding total
preorder; stability is proved below. -/
def pySortDesc {α : Type} (key : α → Int) (l : List α) : List α :=
  List.insertionSort (fun a b => key b ≤ key a) l

/-- The filter step of filter_and_build_digest: drop conflicting and
non-actionable articles. -/
def filter_actionable (validated : List Dict) : List Dict :=
  validated.filter (fun a =>
    !(isStr (dgetD a "validation_status" Js.null) "conflicting") &&
    pyTruthy (dgetD a "is_actionable" (Js.bool false)))

/-- filter_and_build_digest of digest.py, up to the rendered text: filter,
stable descending sort by composite priority, cap. -/
def filter_and_build_digest (validated : List Dict) : List Dict :=
  (pySortDesc digest_key (filter_actionable validated)).take MAX_DIGEST_ITEMS

/-- The category under which build_digest_text groups an article: the
category field with default "tech". -/
def digest_category (a : Dict) : Js :=
  dgetD a "category" (Js.str "tech")

/-- The order in which build_digest_text renders the capped articles: the
finance section, then tech, then govt, each keeping arrival order; an
article of any other category is grouped but never rendered. -/
def digest_order (articles : List Dict) : List Dict :=
  articles.filter (fun a => isStr (digest_category a) "finance") ++
  articles.filter (fun a => isStr (digest_category a) "tech") ++
  articles.filter (fun a => isStr (digest_category a) "govt")

/-- The numbered entries of the rendered digest: display indices are
assigned sequentially across the whole digest starting at one. -/
def digest_entries (articles : List Dict) : List (Nat × Dict) :=
  List.enumFrom 1 (digest_order articles)

/- ------------------------------------------------------------------
backend/agent/database.py
------------------------------------------------------------------ -/

/-- The state update returned by the deduplication node: the surviving
articles, the after_dedup counter merged into stats, and the entries the
node adds to run-level error tracking. -/
structure DedupResult where
  deduplicated : List Dict
  after_dedup : Nat
  errors_added : List String

/-- deduplicate_articles of database.py; store is the outcome of the
lookback query, namely the seen url values on success or the raised error
message. The except branch logs a warning and proceeds with the full
batch; the returned update holds only the deduplicated list and the stats
counter, never an errors entry. -/
def deduplicate_articles (articles : List Dict) (store : Except String (List String)) :
    DedupResult :=
  if articles.isEmpty then ⟨[], 0, []⟩
  else
    let newArticles :=
      match store with
      | Except.ok seenUrls =>
        articles.filter (fun a =>
          match dget a "url" with
          | some (Js.str u) => u != "" && !(seenUrls.contains u)
          | some v => pyTruthy v
          | none => false)
      | Except.error _ => articles
    let capped := newArticles.take 50
    ⟨capped, capped.length, []⟩

/- ------------------------------------------------------------------
backend/server.py
------------------------------------------------------------------ -/

/-- The MAX_TG_CHARS transport limit of server.py. -/
def MAX_TG_CHARS : Nat := 3800

/-- The paragraph separator used by the splitter. -/
def tgSep : List Char := ['\n', '\n']

/-- Python str.split on the two-newline separator. -/
def pySplitSep : List Char → List (List Char)
  | [] => [[]]
  | [c] => [[c]]
  | c1 :: c2 :: rest =>
    if c1 = '\n' ∧ c2 = '\n' then [] :: pySplitSep rest
    else
      match pySplitSep (c2 :: rest) with
      | p :: ps => (c1 :: p) :: ps
      | [] => [[c1]]

/-- The hard byte-offset split of an oversized paragraph into pieces of at
most the limit (the code only reaches it with a positive limit and a
paragraph longer than the limit). -/
def hardSplit (limit : Nat) (l : List Char) : List (List Char) :=
  if l.length ≤ limit ∨ limit = 0 then [l]
  else l.take limit :: hardSplit limit (l.drop limit)
termination_by l.length
decreasing_by
  simp only [List.length_drop]
  omega

/-- The paragraph-accumulating loop of split_telegram_message. -/
def splitLoop (limit : Nat) : List (List Char) → List (List Char) → List Char →
    List (List Char)
  | [], chunks, current => if current.isEmpty then chunks else chunks ++ [current]
  | para :: rest, chunks, current =>
    let block := if current.isEmpty then para else pyStrip (current ++ tgSep ++ para)
    if block.length ≤ limit then splitLoop limit rest chunks block
    else
      let chunks1 := if current.isEmpty then chunks else chunks ++ [current]
      if limit < para.length then splitLoop limit rest (chunks1 ++ hardSplit limit para) []
      else splitLoop limit rest chunks1 para

/-- split_telegram_message of server.py on the characters of the digest
body. -/
def split_telegram_message (text : List Char) : List (List Char) :=
  if text.length ≤ MAX_TG_CHARS then [text]
  else splitLoop MAX_TG_CHARS (pySplitSep text) [] []

/-- A stored digest document as the decision handlers see it: the unique
document id, the workflow status and the creation timestamp. -/
structure DigestDoc where
  id : Nat
  status : String
  created_at : Nat

/-- The pending-digest query of server.py: find_one with the pending filter
and the created_at descending sort, modelled as the first pending document
under that sort (ties broken by stored order, which the store leaves
unspecified). -/
def find_pending_latest (db : List DigestDoc) : Option DigestDoc :=
  (List.insertionSort (fun a b => b.created_at ≤ a.created_at)
    (db.filter (fun d => d.status == "pending"))).head?

/-- handle_approval of server.py, restricted to the digests collection: the
most recent pending digest, if any, is set to sent (the sent_at timestamp
is omitted from the model). -/
def handle_approval (db : List DigestDoc) : List DigestDoc :=
  match find_pending_latest db with
  | none => db
  | some d => db.map (fun x => if x.id = d.id then { x with status := "sent" } else x)

/-- handle_rejection of server.py: update_many sets every pending digest to
rejected (the updated_at timestamp is omitted from the model). -/
def handle_rejection (db : List DigestDoc) : List DigestDoc :=
  db.map (fun x => if x.status = "pending" then { x with status := "rejected" } else x)

/-- The strict descending-key order with the arrival index as tie-break,
used to state stability of the digest sort. -/
def descTieRel {α : Type} (key : α → Int) (p q : Nat × α) : Prop :=
  key q.2 < key p.2 ∨ (key p.2 = key q.2 ∧ p.1 ≤ q.1)

instance descTieRelDecidable {α : Type} (key : α → Int) :
    DecidableRel (descTieRel key) := fun p q => by
  unfold descTieRel
  infer_instance

/-- The reference specification of a stable descending sort by a key: pair
every element with its arrival index, sort by the strict descending key
order breaking ties by index, and forget the indices. -/
def stableDescSpec {α : Type} (key : α → Int) (l : List α) : List α :=
  (List.insertionSort (descTieRel key) l.enum).map Prod.snd

/- ------------------------------------------------------------------
Helper lemmas about the dictionary model
------------------------------------------------------------------ -/

theorem dget_dset_self (d : Dict) (k : String) (v : Js) :
    dget (dset d k v) k = some v := by
  unfold dget dset
  rw [List.reverse_append]
  simp [List.find?]

theorem dget_dset_ne (d : Dict) {k k' : String} (v : Js) (h : k' ≠ k) :
    dget (dset d k v) k' = dget d k' := by
  unfold dget dset
  rw [List.reverse_append]
  have hb : (k == k') = false := beq_eq_false_iff_ne.mpr (Ne.symm h)
  simp [List.find?, hb]

theorem dget_append (a b : Dict) (k : String) :
    dget (a ++ b) k = ((dget b k).or (dget a k)) := by
  unfold dget
  rw [List.reverse_append, List.find?_append]
  cases b.reverse.find? (fun p => p.1 == k) <;> simp [Option.or]

theorem isStr_dgetD_iff (d : Dict) (k s : String) :
    isStr (dgetD d k Js.null) s = true ↔ dget d k = some (Js.str s) := by
  unfold isStr dgetD
  cases h : dget d k with
  | none => simp
  | some v => cases v <;> simp

/- ------------------------------------------------------------------
C1
------------------------------------------------------------------ -/

/-- C1: for every item entering corroboration with validation_status
unverified and needs_cross_reference true, if the number of distinct
result domains (excluding the item own source domain) among the top
fifteen search results is at least two, the item becomes verified, its
credibility score is increased by exactly fifteen capped at one hundred, a
corroboration note is appended to its reasoning and the count is recorded;
below the threshold only the count is recorded and no other field
changes. -/
theorem C1_corroboration_threshold (entriesFor : Dict → List String) (a : Dict) (cred : Int)
    (hnc : pyTruthyO (dget a "needs_cross_reference") = true)
    (hst : dget a "validation_status" = some (Js.str "unverified"))
    (hcred : dget a "credibility_score" = some (Js.num cred)) :
    needs_check a = true ∧
    (∀ n, n = count_confirming_sources (entriesFor a) (dgetStrD a "source_domain" "") →
      (2 ≤ n →
        dget (check_one a n) "validation_status" = some (Js.str "verified") ∧
        dget (check_one a n) "credibility_score" = some (Js.num (min 100 (cred + 15))) ∧
        dget (check_one a n) "reasoning" = some (Js.str (pyStripStr
          (dgetStrD a "reasoning" "" ++ " [" ++ toString n ++ " other sources confirm]"))) ∧
        dget (check_one a n) "cross_reference_count" = some (Js.num n) ∧
        (∀ k, k ≠ "validation_status" → k ≠ "credibility_score" → k ≠ "reasoning" →
          k ≠ "cross_reference_count" → dget (check_one a n) k = dget a k)) ∧
      (n < 2 →
        dget (check_one a n) "cross_reference_count" = some (Js.num n) ∧
        (∀ k, k ≠ "cross_reference_count" → dget (check_one a n) k = dget a k))) := by
  constructor
  · unfold needs_check
    rw [hnc, Bool.true_and]
    exact (isStr_dgetD_iff a "validation_status" "unverified").mpr hst
  · intro n _
    constructor
    · intro hn
      have hcount : dgetNumD a "credibility_score" 60 = cred := by
        unfold dgetNumD
        rw [hcred]
      unfold check_one MIN_SOURCES_FOR_VERIFIED
      rw [if_pos hn, hcount]
      refine ⟨?_, ?_, ?_, ?_, ?_⟩
      · rw [dget_dset_ne _ _ (by decide), dget_dset_ne _ _ (by decide),
          dget_dset_ne _ _ (by decide), dget_dset_self]
      · rw [dget_dset_ne _ _ (by decide), dget_dset_self]
      · rw [dget_dset_self]
      · rw [dget_dset_ne _ _ (by decide), dget_dset_ne _ _ (by decide), dget_dset_self]
      · intro k h1 h2 h3 h4
        rw [dget_dset_ne _ _ h3, dget_dset_ne _ _ h2, dget_dset_ne _ _ h4,
          dget_dset_ne _ _ h1]
    · intro hn
      unfold check_one MIN_SOURCES_FOR_VERIFIED
      rw [if_neg (by omega)]
      exact ⟨dget_dset_self _ _ _, fun k hk => dget_dset_ne _ _ hk⟩

/-- Witness for C1 at a concrete unverified item and a feed with two
distinct confirming domains. -/
theorem C1_witness :
    dget (check_one
      [("needs_cross_reference", Js.bool true), ("validation_status", Js.str "unverified"),
       ("credibility_score", Js.num 72), ("source_domain", Js.str "orig.com"),
       ("reasoning", Js.str "x")] 2) "credibility_score" = some (Js.num 87) ∧
    dget (check_one
      [("needs_cross_reference", Js.bool true), ("validation_status", Js.str "unverified"),
       ("credibility_score", Js.num 72), ("source_domain", Js.str "orig.com"),
       ("reasoning", Js.str "x")] 2) "validation_status" = some (Js.str "verified") := by
  have h := C1_corroboration_threshold
    (fun _ => ["https://a.com/1", "https://b.com/2"])
    [("needs_cross_reference", Js.bool true), ("validation_status", Js.str "unverified"),
     ("credibility_score", Js.num 72), ("source_domain", Js.str "orig.com"),
     ("reasoning", Js.str "x")] 72 rfl rfl rfl
  have h2 := (h.2 2 rfl).1 (by decide)
  exact ⟨by simpa using h2.2.1, h2.1⟩

/- ------------------------------------------------------------------
C3
------------------------------------------------------------------ -/

/-- C3: corroboration never changes an item that is verified or
conflicting, never changes an item whose needs_cross_reference flag is not
set, never moves a status to unverified, and every input item is either
left unchanged, or only given a cross_reference_count, or given the
upgrade-plus-count mutation. -/
theorem C3_corroboration_invariants (entriesFor : Dict → List String)
    (articles : List Dict) (i : Nat) (h1 : i < articles.length)
    (h2 : i < (cross_reference_check entriesFor articles).length) :
    (needs_check (articles.get ⟨i, h1⟩) = false →
      (cross_reference_check entriesFor articles).get ⟨i, h2⟩ = articles.get ⟨i, h1⟩) ∧
    (dget (articles.get ⟨i, h1⟩) "validation_status" ≠ some (Js.str "unverified") →
      (cross_reference_check entriesFor articles).get ⟨i, h2⟩ = articles.get ⟨i, h1⟩) ∧
    (pyTruthyO (dget (articles.get ⟨i, h1⟩) "needs_cross_reference") = false →
      (cross_reference_check entriesFor articles).get ⟨i, h2⟩ = articles.get ⟨i, h1⟩) ∧
    (dget ((cross_reference_check entriesFor articles).get ⟨i, h2⟩) "validation_status" =
        some (Js.str "unverified") →
      dget (articles.get ⟨i, h1⟩) "validation_status" = some (Js.str "unverified")) ∧
    ((cross_reference_check entriesFor articles).get ⟨i, h2⟩ = articles.get ⟨i, h1⟩ ∨
      (∃ n, (cross_reference_check entriesFor articles).get ⟨i, h2⟩ =
        dset (articles.get ⟨i, h1⟩) "cross_reference_count" (Js.num n)) ∨
      (∃ n, 2 ≤ n ∧ (cross_reference_check entriesFor articles).get ⟨i, h2⟩ =
        check_one (articles.get ⟨i, h1⟩) n)) := by
  set a := articles.get ⟨i, h1⟩ with ha
  have hb : (cross_reference_check entriesFor articles).get ⟨i, h2⟩ =
      (if needs_check a then
        check_one a (count_confirming_sources (entriesFor a) (dgetStrD a "source_domain" ""))
      else a) := by
    unfold cross_reference_check
    rw [List.get_map]
  by_cases hc : needs_check a = true
  · set n0 := count_confirming_sources (entriesFor a) (dgetStrD a "source_domain" "") with hn0
    rw [hc, if_pos rfl] at hb
    have hstat : dget a "validation_status" = some (Js.str "unverified") := by
      unfold needs_check at hc
      rw [Bool.and_eq_true] at hc
      exact (isStr_dgetD_iff a "validation_status" "unverified").mp hc.2
    refine ⟨?_, ?_, ?_, ?_, ?_⟩
    · intro h
      rw [hc] at h
      exact absurd h (by decide)
    · intro h
      exact absurd hstat h
    · intro h
      unfold needs_check at hc
      rw [Bool.and_eq_true] at hc
      rw [hc.1] at h
      exact absurd h (by decide)
    · intro _
      exact hstat
    · by_cases hn : 2 ≤ n0
      · exact Or.inr (Or.inr ⟨n0, hn, hb⟩)
      · refine Or.inr (Or.inl ⟨n0, ?_⟩)
        rw [hb]
        unfold check_one MIN_SOURCES_FOR_VERIFIED
        rw [if_neg hn]
  · rw [Bool.not_eq_true] at hc
    rw [hc, if_neg (by simp)] at hb
    exact ⟨fun _ => hb, fun _ => hb, fun _ => hb, fun h => by rwa [hb] at h, Or.inl hb⟩

/-- Witness for C3 at a one-element list whose item is already verified
and needs no corroboration. -/
theorem C3_witness :
    (cross_reference_check (fun _ => [])
      [[("validation_status", Js.str "verified")]]).get ⟨0, by decide⟩ =
      [("validation_status", Js.str "verified")] := by
  have h := C3_corroboration_invariants (fun _ => [])
    [[("validation_status", Js.str "verified")]] 0 (by decide) (by decide)
  exact h.1 rfl

/- ------------------------------------------------------------------
More dictionary evaluation lemmas
------------------------------------------------------------------ -/

theorem dget_nil (key : String) : dget [] key = none := rfl

theorem dget_cons (k : String) (v : Js) (l : List (String × Js)) (key : String) :
    dget ((k, v) :: l) key = ((dget l key).or (if k == key then some v else none)) := by
  have h : (k, v) :: l = [(k, v)] ++ l := rfl
  rw [h, dget_append]
  have h2 : dget [(k, v)] key = (if k == key then some v else none) := by
    unfold dget
    cases hb : k == key <;> simp [List.find?, hb]
  rw [h2]

/- ------------------------------------------------------------------
C5
------------------------------------------------------------------ -/

/-- C5 (amended): the fallback path applies domain-tier rules where a tier
matches whenever an allow-listed domain occurs as a substring of the item
source domain (not only on exact membership): an official match yields
verified with score 92 and needs_cross_reference false; otherwise a news
match yields unverified with score 72 and needs_cross_reference true;
otherwise a community match yields unverified with score 45 and
is_actionable false; a domain containing none of the allow-listed strings
yields unverified with score 55 and needs_cross_reference true. With no
classification service configured every item takes this path. -/
theorem C5_fallback_tiers (a : Dict) (resp : Option (Nat × String)) :
    (validate_one false a resp = rule_based a) ∧
    ((∃ d ∈ OFFICIAL, containsSub d (pyLower (dgetStrD a "source_domain" "")) = true) →
      dget (rule_based a) "validation_status" = some (Js.str "verified") ∧
      dget (rule_based a) "credibility_score" = some (Js.num 92) ∧
      dget (rule_based a) "needs_cross_reference" = some (Js.bool false)) ∧
    ((∀ d ∈ OFFICIAL, containsSub d (pyLower (dgetStrD a "source_domain" "")) = false) →
      (∃ d ∈ NEWS, containsSub d (pyLower (dgetStrD a "source_domain" "")) = true) →
      dget (rule_based a) "validation_status" = some (Js.str "unverified") ∧
      dget (rule_based a) "credibility_score" = some (Js.num 72) ∧
      dget (rule_based a) "needs_cross_reference" = some (Js.bool true)) ∧
    ((∀ d ∈ OFFICIAL ++ NEWS, containsSub d (pyLower (dgetStrD a "source_domain" "")) = false) →
      (∃ d ∈ COMMUNITY, containsSub d (pyLower (dgetStrD a "source_domain" "")) = true) →
      dget (rule_based a) "validation_status" = some (Js.str "unverified") ∧
      dget (rule_based a) "credibility_score" = some (Js.num 45) ∧
      dget (rule_based a) "is_actionable" = some (Js.bool false)) ∧
    ((∀ d ∈ OFFICIAL ++ NEWS ++ COMMUNITY,
        containsSub d (pyLower (dgetStrD a "source_domain" "")) = false) →
      dget (rule_based a) "validation_status" = some (Js.str "unverified") ∧
      dget (rule_based a) "credibility_score" = some (Js.num 55) ∧
      dget (rule_based a) "needs_cross_reference" = some (Js.bool true)) := by
  refine ⟨by unfold validate_one; simp, ?_, ?_, ?_, ?_⟩
  · intro hof
    have h1 : OFFICIAL.any
        (fun d => containsSub d (pyLower (dgetStrD a "source_domain" ""))) = true :=
      List.any_eq_true.mpr hof
    unfold rule_based
    rw [if_pos h1]
    refine ⟨?_, ?_, ?_⟩ <;>
      (rw [dget_append]; simp [dget_cons, dget_nil, Option.or])
  · intro hof hnews
    have h1 : OFFICIAL.any
        (fun d => containsSub d (pyLower (dgetStrD a "source_domain" ""))) = false := by
      rw [List.any_eq_false]
      intro d hd
      simp [hof d hd]
    have h2 : NEWS.any
        (fun d => containsSub d (pyLower (dgetStrD a "source_domain" ""))) = true :=
      List.any_eq_true.mpr hnews
    unfold rule_based
    rw [if_neg (by simp [h1]), if_pos h2]
    refine ⟨?_, ?_, ?_⟩ <;>
      (rw [dget_append]; simp [dget_cons, dget_nil, Option.or])
  · intro hofn hcom
    have h1 : OFFICIAL.any
        (fun d => containsSub d (pyLower (dgetStrD a "source_domain" ""))) = false := by
      rw [List.any_eq_false]
      intro d hd
      simp [hofn d (List.mem_append_left _ hd)]
    have h2 : NEWS.any
        (fun d => containsSub d (pyLower (dgetStrD a "source_domain" ""))) = false := by
      rw [List.any_eq_false]
      intro d hd
      simp [hofn d (List.mem_append_right _ hd)]
    have h3 : COMMUNITY.any
        (fun d => containsSub d (pyLower (dgetStrD a "source_domain" ""))) = true :=
      List.any_eq_true.mpr hcom
    unfold rule_based
    rw [if_neg (by simp [h1]), if_neg (by simp [h2]), if_pos h3]
    refine ⟨?_, ?_, ?_⟩ <;>
      (rw [dget_append]; simp [dget_cons, dget_nil, Option.or])
  · intro hall
    have h1 : OFFICIAL.any
        (fun d => containsSub d (pyLower (dgetStrD a "source_domain" ""))) = false := by
      rw [List.any_eq_false]
      intro d hd
      simp [hall d (by simp [hd])]
    have h2 : NEWS.any
        (fun d => containsSub d (pyLower (dgetStrD a "source_domain" ""))) = false := by
      rw [List.any_eq_false]
      intro d hd
      simp [hall d (by simp [hd])]
    have h3 : COMMUNITY.any
        (fun d => containsSub d (pyLower (dgetStrD a "source_domain" ""))) = false := by
      rw [List.any_eq_false]
      intro d hd
      simp [hall d (by simp [hd])]
    unfold rule_based
    rw [if_neg (by simp [h1]), if_neg (by simp [h2]), if_neg (by simp [h3])]
    refine ⟨?_, ?_, ?_⟩ <;>
      (rw [dget_append]; simp [dget_cons, dget_nil, Option.or])

/-- C5 counterexample: the domain xrbi.org.in belongs to none of the three
allow-lists, yet the fallback marks the item verified with score 92,
because tier matching tests substring containment; the claim as stated
requires unverified with score 55 for such a domain. -/
theorem C5_counterexample :
    ("xrbi.org.in" ∉ OFFICIAL ∧ "xrbi.org.in" ∉ NEWS ∧ "xrbi.org.in" ∉ COMMUNITY) ∧
    dget (rule_based [("source_domain", Js.str "xrbi.org.in")]) "validation_status" =
      some (Js.str "verified") ∧
    dget (rule_based [("source_domain", Js.str "xrbi.org.in")]) "credibility_score" =
      some (Js.num 92) :=
  ⟨by decide, rfl, rfl⟩

/-- Witness for C5 at the scenario item from pib.gov.in with no
classification service configured. -/
theorem C5_witness :
    validate_one false
      [("url", Js.str "https://pib.gov.in/x"), ("title", Js.str "RBI cashback rule"),
       ("source_domain", Js.str "pib.gov.in")] none =
      rule_based
        [("url", Js.str "https://pib.gov.in/x"), ("title", Js.str "RBI cashback rule"),
         ("source_domain", Js.str "pib.gov.in")] ∧
    dget (rule_based
      [("url", Js.str "https://pib.gov.in/x"), ("title", Js.str "RBI cashback rule"),
       ("source_domain", Js.str "pib.gov.in")]) "validation_status" =
      some (Js.str "verified") ∧
    dget (rule_based
      [("url", Js.str "https://pib.gov.in/x"), ("title", Js.str "RBI cashback rule"),
       ("source_domain", Js.str "pib.gov.in")]) "credibility_score" = some (Js.num 92) ∧
    dget (rule_based
      [("url", Js.str "https://pib.gov.in/x"), ("title", Js.str "RBI cashback rule"),
       ("source_domain", Js.str "pib.gov.in")]) "needs_cross_reference" =
      some (Js.bool false) := by
  have h := C5_fallback_tiers
    [("url", Js.str "https://pib.gov.in/x"), ("title", Js.str "RBI cashback rule"),
     ("source_domain", Js.str "pib.gov.in")] none
  have h2 := h.2.1 ⟨"pib.gov.in", by decide, by decide⟩
  exact ⟨h.1, h2⟩

/- ------------------------------------------------------------------
C2 and C9 share this evaluation of the primary validation path
------------------------------------------------------------------ -/

theorem validate_one_200 (a : Dict) (c : String) :
    validate_one true a (some (200, c)) =
      (match extract_json c with
       | some parsed =>
         if pyTruthy parsed then
           match parsed with
           | Js.obj fields => pyMerge a fields
           | _ => rule_based a
         else rule_based a
       | none => rule_based a) := by
  unfold validate_one
  simp

theorem rule_based_score_cases (a : Dict) :
    dget (rule_based a) "credibility_score" = some (Js.num 92) ∨
    dget (rule_based a) "credibility_score" = some (Js.num 72) ∨
    dget (rule_based a) "credibility_score" = some (Js.num 45) ∨
    dget (rule_based a) "credibility_score" = some (Js.num 55) := by
  simp only [rule_based]
  by_cases h1 : (OFFICIAL.any
      fun d => containsSub d (pyLower (dgetStrD a "source_domain" ""))) = true
  · rw [if_pos h1]
    exact Or.inl (by rw [dget_append]; simp [dget_cons, dget_nil, Option.or])
  · rw [if_neg h1]
    by_cases h2 : (NEWS.any
        fun d => containsSub d (pyLower (dgetStrD a "source_domain" ""))) = true
    · rw [if_pos h2]
      exact Or.inr (Or.inl (by rw [dget_append]; simp [dget_cons, dget_nil, Option.or]))
    · rw [if_neg h2]
      by_cases h3 : (COMMUNITY.any
          fun d => containsSub d (pyLower (dgetStrD a "source_domain" ""))) = true
      · rw [if_pos h3]
        exact Or.inr (Or.inr (Or.inl
          (by rw [dget_append]; simp [dget_cons, dget_nil, Option.or])))
      · rw [if_neg h3]
        exact Or.inr (Or.inr (Or.inr
          (by rw [dget_append]; simp [dget_cons, dget_nil, Option.or])))

/- ------------------------------------------------------------------
C2
------------------------------------------------------------------ -/

/-- C2 (amended): every item validated through the rule-based fallback has
an integer credibility score between 0 and 100 (and the fallback is taken
whenever no service is configured); an item validated through the primary
path takes the credibility score parsed from the service reply without any
clamping, so the bound holds there only when the reply obeys it. -/
theorem C2_score_bounds (a : Dict) (resp : Option (Nat × String)) (c : String)
    (fs : List (String × Js)) (n : Int) :
    (∃ m : Int, dget (rule_based a) "credibility_score" = some (Js.num m) ∧
      0 ≤ m ∧ m ≤ 100) ∧
    (validate_one false a resp = rule_based a) ∧
    (extract_json c = some (Js.obj fs) → fs ≠ [] →
      dget (fs : Dict) "credibility_score" = some (Js.num n) →
      dget (validate_one true a (some (200, c))) "credibility_score" = some (Js.num n)) := by
  refine ⟨?_, by unfold validate_one; simp, ?_⟩
  · rcases rule_based_score_cases a with h | h | h | h
    · exact ⟨92, h, by decide, by decide⟩
    · exact ⟨72, h, by decide, by decide⟩
    · exact ⟨45, h, by decide, by decide⟩
    · exact ⟨55, h, by decide, by decide⟩
  · intro he hfs hn
    have ht : pyTruthy (Js.obj fs) = true := by
      cases fs with
      | nil => exact absurd rfl hfs
      | cons p l => simp [pyTruthy]
    rw [validate_one_200, he]
    try dsimp only
    rw [if_pos ht]
    try dsimp only
    unfold pyMerge
    rw [dget_append, hn]
    rfl

/-- C2 counterexample: a service reply carrying credibility_score 150 is
merged unclamped, so the validated item violates the claimed bound. -/
theorem C2_counterexample :
    dget (validate_one true [] (some (200, "\x7b\x22credibility_score\x22: 150\x7d")))
      "credibility_score" = some (Js.num 150) ∧ ¬((150 : Int) ≤ 100) :=
  ⟨rfl, by decide⟩

/-- Witness for C2 at a reply whose embedded object carries an in-range
score. -/
theorem C2_witness :
    dget (validate_one true [] (some (200, "\x7b\x22credibility_score\x22: 88\x7d")))
      "credibility_score" = some (Js.num 88) := by
  have h := C2_score_bounds [] none "\x7b\x22credibility_score\x22: 88\x7d"
    [("credibility_score", Js.num 88)] 88
  exact h.2.2 rfl (by simp) rfl

/- ------------------------------------------------------------------
C9
------------------------------------------------------------------ -/

/-- C9 (amended): the reply parse is two-step — a strict parse of the whole
stripped reply, then a parse of the first flat brace-delimited substring —
and the parsed fields are merged onto the item only when the parse yields
a non-empty JSON object; an empty object, any non-object parse (falsy or
truthy) and a double failure all resolve through the rule-based
fallback. -/
theorem C9_tolerant_parse (a : Dict) (c : String) :
    (∀ fs, json_loads (pyStripStr c) = some (Js.obj fs) → fs ≠ [] →
      validate_one true a (some (200, c)) = pyMerge a fs) ∧
    (json_loads (pyStripStr c) = none →
      ∀ sub fs, firstFlatBrace (pyStripStr c).data = some sub →
        json_loads (String.mk sub) = some (Js.obj fs) → fs ≠ [] →
        validate_one true a (some (200, c)) = pyMerge a fs) ∧
    (extract_json c = none → validate_one true a (some (200, c)) = rule_based a) ∧
    (∀ v, extract_json c = some v → pyTruthy v = false →
      validate_one true a (some (200, c)) = rule_based a) ∧
    (∀ v, extract_json c = some v → pyTruthy v = true → (∀ fs, v ≠ Js.obj fs) →
      validate_one true a (some (200, c)) = rule_based a) := by
  have hobj : ∀ fs : List (String × Js), fs ≠ [] → pyTruthy (Js.obj fs) = true := by
    intro fs hfs
    cases fs with
    | nil => exact absurd rfl hfs
    | cons p l => simp [pyTruthy]
  refine ⟨?_, ?_, ?_, ?_, ?_⟩
  · intro fs hload hfs
    have he : extract_json c = some (Js.obj fs) := by
      simp only [extract_json]
      rw [hload]
    rw [validate_one_200, he]
    try dsimp only
    rw [if_pos (hobj fs hfs)]
  · intro hload sub fs hbrace hsub hfs
    have he : extract_json c = some (Js.obj fs) := by
      simp only [extract_json]
      rw [hload]
      try dsimp only
      rw [hbrace]
      exact hsub
    rw [validate_one_200, he]
    try dsimp only
    rw [if_pos (hobj fs hfs)]
  · intro he
    rw [validate_one_200, he]
  · intro v he hfalse
    rw [validate_one_200, he]
    try dsimp only
    rw [if_neg (by simp [hfalse])]
  · intro v he htrue hnobj
    rw [validate_one_200, he]
    try dsimp only
    rw [if_pos htrue]
    cases v with
    | obj fs => exact absurd rfl (hnobj fs)
    | null => rfl
    | bool b => rfl
    | num n => rfl
    | str s => rfl
    | arr l => rfl

/-- C9 counterexample: a reply that is exactly the empty JSON object parses
in the strict step, yet its (empty) field set is not merged — the item
resolves through the fallback instead of being returned unchanged as the
claim requires. -/
theorem C9_counterexample :
    json_loads "\x7b\x7d" = some (Js.obj []) ∧
    validate_one true [] (some (200, "\x7b\x7d")) ≠ pyMerge [] [] := by
  refine ⟨rfl, ?_⟩
  intro h
  have h1 : dget (validate_one true [] (some (200, "\x7b\x7d"))) "credibility_score" =
      some (Js.num 55) := rfl
  have h2 : dget (pyMerge ([] : Dict) []) "credibility_score" = none := rfl
  rw [h, h2] at h1
  exact Option.noConfusion h1

/-- Witness for C9 at a reply embedding one flat object inside prose. -/
theorem C9_witness :
    validate_one true [] (some (200, "note \x7b\x22credibility_score\x22: 88\x7d end")) =
      pyMerge [] [("credibility_score", Js.num 88)] := by
  have h := (C9_tolerant_parse [] "note \x7b\x22credibility_score\x22: 88\x7d end").2.1
  exact h rfl "\x7b\x22credibility_score\x22: 88\x7d".data
    [("credibility_score", Js.num 88)] rfl rfl (by simp)

/- ------------------------------------------------------------------
C6 and C10 share this evaluation of the failing-store path
------------------------------------------------------------------ -/

theorem dedup_error_eval (articles : List Dict) (msg : String) :
    deduplicate_articles articles (Except.error msg) =
      ⟨articles.take 50, (articles.take 50).length, []⟩ := by
  unfold deduplicate_articles
  by_cases h : articles.isEmpty = true
  · rw [if_pos h]
    cases articles with
    | nil => rfl
    | cons a l => simp [List.isEmpty] at h
  · rw [if_neg h]

/- ------------------------------------------------------------------
C6
------------------------------------------------------------------ -/

/-- C6 (amended): when the lookback query raises, the deduplication stage
does not fail: it returns the full un-deduplicated batch truncated to the
fifty-item cap in arrival order; however the returned state update carries
no run-level error entry, the fault being only logged. -/
theorem C6_dedup_fail_open (articles : List Dict) (msg : String) :
    deduplicate_articles articles (Except.error msg) =
      ⟨articles.take 50, (articles.take 50).length, []⟩ :=
  dedup_error_eval articles msg

/-- C6 counterexample: on a store failure with a nonempty batch, the
returned update carries an empty run-level error contribution, so the
fault is not surfaced in run-level error tracking as the claim states. -/
theorem C6_counterexample :
    (deduplicate_articles [[("url", Js.str "u1")]]
      (Except.error "db down")).errors_added = [] :=
  rfl

/- ------------------------------------------------------------------
C10
------------------------------------------------------------------ -/

/-- C10: an article with a missing or empty url is excluded from the
deduplicated output when the lookback query succeeds, and retained
(subject only to the fifty-item cap) when the query fails. -/
theorem C10_missing_url (articles : List Dict) (seen : List String) (msg : String) :
    (∀ a ∈ articles, (dget a "url" = none ∨ dget a "url" = some (Js.str "")) →
      a ∉ (deduplicate_articles articles (Except.ok seen)).deduplicated) ∧
    (deduplicate_articles articles (Except.error msg)).deduplicated = articles.take 50 := by
  constructor
  · intro a _ hbad hmem
    unfold deduplicate_articles at hmem
    by_cases h : articles.isEmpty = true
    · rw [if_pos h] at hmem
      simp at hmem
    · rw [if_neg h] at hmem
      dsimp only at hmem
      have hmem2 := List.mem_of_mem_take hmem
      rw [List.mem_filter] at hmem2
      have hp := hmem2.2
      rcases hbad with hb | hb <;> simp [hb] at hp
  · rw [dedup_error_eval]

/-- Witness for C10 at a one-article batch lacking a url. -/
theorem C10_witness :
    [("title", Js.str "t")] ∉
      (deduplicate_articles [[("title", Js.str "t")]] (Except.ok [])).deduplicated ∧
    (deduplicate_articles [[("title", Js.str "t")]]
      (Except.error "down")).deduplicated = [[("title", Js.str "t")]] := by
  have h := C10_missing_url [[("title", Js.str "t")]] [] "down"
  exact ⟨h.1 _ (by simp) (Or.inl rfl), h.2⟩

/- ------------------------------------------------------------------
C8
------------------------------------------------------------------ -/

theorem find_pending_latest_spec (db : List DigestDoc) (d : DigestDoc)
    (h : find_pending_latest db = some d) : d ∈ db ∧ d.status = "pending" := by
  unfold find_pending_latest at h
  cases hs : List.insertionSort (fun a b => b.created_at ≤ a.created_at)
      (db.filter fun x => x.status == "pending") with
  | nil =>
    rw [hs] at h
    exact Option.noConfusion h
  | cons x xs =>
    rw [hs] at h
    have hx : x = d := by
      simpa using h
    have hmem : x ∈ List.insertionSort (fun a b => b.created_at ≤ a.created_at)
        (db.filter fun y => y.status == "pending") := by
      rw [hs]
      exact List.mem_cons_self _ _
    rw [(List.perm_insertionSort _ _).mem_iff, List.mem_filter] at hmem
    rw [← hx]
    exact ⟨hmem.1, by simpa using hmem.2⟩

/-- C8: a digest whose stored status is sent or rejected is never mutated
by a later decision event: the approval handler mutates only the most
recent pending digest and the rejection handler mutates only pending
digests. -/
theorem C8_terminal_states (db : List DigestDoc)
    (hids : (db.map DigestDoc.id).Nodup) :
    List.Forall₂ (fun x y => (x.status = "sent" ∨ x.status = "rejected") → y = x)
      db (handle_approval db) ∧
    List.Forall₂ (fun x y => (x.status = "sent" ∨ x.status = "rejected") → y = x)
      db (handle_rejection db) := by
  constructor
  · unfold handle_approval
    cases hf : find_pending_latest db with
    | none =>
      exact List.forall₂_same.mpr (fun x _ _ => rfl)
    | some d =>
      have hd := find_pending_latest_spec db d hf
      rw [List.forall₂_map_right_iff]
      refine List.forall₂_same.mpr (fun x hx hstat => ?_)
      rw [if_neg]
      intro hid
      have hxd : x = d := List.inj_on_of_nodup_map hids hx hd.1 hid
      rcases hstat with hstat | hstat <;>
        (rw [hxd, hd.2] at hstat; exact absurd hstat (by decide))
  · unfold handle_rejection
    rw [List.forall₂_map_right_iff]
    refine List.forall₂_same.mpr (fun x _ hstat => ?_)
    rw [if_neg]
    rcases hstat with hstat | hstat <;> (rw [hstat]; decide)

/-- Witness for C8 at a store holding one sent and one pending digest. -/
theorem C8_witness :
    List.Forall₂ (fun x y => (x.status = "sent" ∨ x.status = "rejected") → y = x)
      [⟨1, "sent", 5⟩, ⟨2, "pending", 3⟩]
      (handle_approval [⟨1, "sent", 5⟩, ⟨2, "pending", 3⟩]) :=
  (C8_terminal_states [⟨1, "sent", 5⟩, ⟨2, "pending", 3⟩] (by decide)).1

/- ------------------------------------------------------------------
Stability of the digest sort
------------------------------------------------------------------ -/

theorem mem_enumFrom_fst_ge {α : Type} (l : List α) :
    ∀ (n : Nat) (p : Nat × α), p ∈ List.enumFrom n l → n ≤ p.1 := by
  induction l with
  | nil =>
    intro n p h
    simp [List.enumFrom] at h
  | cons a as ih =>
    intro n p h
    simp only [List.enumFrom, List.mem_cons] at h
    rcases h with rfl | h
    · exact le_refl n
    · have := ih (n + 1) p h
      omega

theorem enumFrom_pairwise_fst_lt {α : Type} (l : List α) :
    ∀ n : Nat, (List.enumFrom n l).Pairwise (fun p q => p.1 < q.1) := by
  induction l with
  | nil =>
    intro n
    simp [List.enumFrom]
  | cons a as ih =>
    intro n
    simp only [List.enumFrom]
    refine List.Pairwise.cons ?_ (ih (n + 1))
    intro q hq
    have := mem_enumFrom_fst_ge as (n + 1) q hq
    simp only
    omega

theorem enumFrom_map_fst_eq_range {α : Type} (l : List α) :
    ∀ n : Nat, (List.enumFrom n l).map Prod.fst = List.range' n l.length := by
  induction l with
  | nil =>
    intro n
    rfl
  | cons a as ih =>
    intro n
    simp only [List.enumFrom, List.map, List.length_cons, List.range'_succ]
    rw [ih (n + 1)]

theorem orderedInsert_descTie_snd {α : Type} (key : α → Int) (p : Nat × α)
    (S : List (Nat × α)) (h : ∀ q ∈ S, p.1 < q.1) :
    (List.orderedInsert (descTieRel key) p S).map Prod.snd =
      List.orderedInsert (fun a b => key b ≤ key a) p.2 (S.map Prod.snd) := by
  induction S with
  | nil => rfl
  | cons q S ih =>
    have hpq : p.1 < q.1 := h q (List.mem_cons_self q S)
    by_cases hle : key q.2 ≤ key p.2
    · have hr : descTieRel key p q := by
        unfold descTieRel
        rcases lt_or_eq_of_le hle with hlt | heq
        · exact Or.inl hlt
        · exact Or.inr ⟨heq.symm, Nat.le_of_lt hpq⟩
      simp only [List.orderedInsert, List.map]
      rw [if_pos hr, if_pos hle]
      simp
    · have hr : ¬descTieRel key p q := by
        unfold descTieRel
        rintro (hlt | ⟨heq, _⟩)
        · exact hle (le_of_lt hlt)
        · exact hle (le_of_eq heq.symm)
      simp only [List.orderedInsert, List.map]
      rw [if_neg hr, if_neg hle]
      simp only [List.map]
      rw [ih (fun r hr2 => h r (List.mem_cons_of_mem _ hr2))]

theorem insertionSort_descTie_snd {α : Type} (key : α → Int) (ps : List (Nat × α))
    (h : ps.Pairwise (fun p q => p.1 < q.1)) :
    (List.insertionSort (descTieRel key) ps).map Prod.snd =
      List.insertionSort (fun a b => key b ≤ key a) (ps.map Prod.snd) := by
  induction ps with
  | nil => rfl
  | cons p ps ih =>
    simp only [List.insertionSort, List.map]
    have hp : ∀ q ∈ List.insertionSort (descTieRel key) ps, p.1 < q.1 := by
      intro q hq
      exact (List.pairwise_cons.mp h).1 q ((List.perm_insertionSort _ _).mem_iff.mp hq)
    rw [orderedInsert_descTie_snd key p _ hp, ih (List.pairwise_cons.mp h).2]

theorem pySortDesc_stable {α : Type} (key : α → Int) (l : List α) :
    pySortDesc key l = stableDescSpec key l := by
  unfold pySortDesc stableDescSpec
  rw [insertionSort_descTie_snd key l.enum (enumFrom_pairwise_fst_lt l 0),
    List.enum_map_snd]

/- ------------------------------------------------------------------
Grouping of the rendered digest
------------------------------------------------------------------ -/

theorem digest_order_perm (l : List Dict)
    (h : ∀ a ∈ l, digest_category a = Js.str "finance" ∨
      digest_category a = Js.str "tech" ∨ digest_category a = Js.str "govt") :
    (digest_order l).Perm l := by
  unfold digest_order
  have h4 : l.filter (fun a => isStr (digest_category a) "tech") =
      (l.filter (fun a => !(isStr (digest_category a) "finance"))).filter
        (fun a => isStr (digest_category a) "tech") := by
    rw [List.filter_filter]
    refine (List.filter_congr ?_).symm
    intro a ha
    rcases h a ha with hc | hc | hc <;> rw [hc] <;> simp [isStr]
  have h5 : l.filter (fun a => isStr (digest_category a) "govt") =
      (l.filter (fun a => !(isStr (digest_category a) "finance"))).filter
        (fun a => isStr (digest_category a) "govt") := by
    rw [List.filter_filter]
    refine (List.filter_congr ?_).symm
    intro a ha
    rcases h a ha with hc | hc | hc <;> rw [hc] <;> simp [isStr]
  have h3 : (l.filter (fun a => !(isStr (digest_category a) "finance"))).filter
        (fun a => isStr (digest_category a) "govt") =
      (l.filter (fun a => !(isStr (digest_category a) "finance"))).filter
        (fun a => !(isStr (digest_category a) "tech")) := by
    refine List.filter_congr ?_
    intro a ha
    have hal := List.mem_filter.mp ha
    rcases h a hal.1 with hc | hc | hc
    · exfalso
      have := hal.2
      rw [hc] at this
      simp [isStr] at this
    · rw [hc]
      simp [isStr]
    · rw [hc]
      simp [isStr]
  rw [List.append_assoc, h4, h5, h3]
  refine List.Perm.trans (List.Perm.append_left _ ?_) (List.filter_append_perm _ l)
  exact List.filter_append_perm _ _

/- ------------------------------------------------------------------
C4
------------------------------------------------------------------ -/

/-- C4: the digest builder discards exactly the conflicting and
non-actionable items, assigns composite priorities whose keyword boost is
between zero and thirty and non-zero only for finance items, sorts stably
in descending priority order (ties keep arrival order, witnessed by
equality with the index-tie-break reference sort), caps the digest at
fifteen items, and renders the capped items grouped finance then tech
then govt with sequential display indices across the whole digest. -/
theorem C4_digest_pipeline (validated : List Dict) :
    (∀ a ∈ validated, (a ∈ filter_actionable validated ↔
      (isStr (dgetD a "validation_status" Js.null) "conflicting" = false ∧
        pyTruthy (dgetD a "is_actionable" (Js.bool false)) = true))) ∧
    (∀ a : Dict, 0 ≤ cc_upi_boost a ∧ cc_upi_boost a ≤ 30 ∧
      (cc_upi_boost a ≠ 0 → dget a "category" = some (Js.str "finance"))) ∧
    (pySortDesc digest_key (filter_actionable validated) =
      stableDescSpec digest_key (filter_actionable validated)) ∧
    ((pySortDesc digest_key (filter_actionable validated)).Perm
      (filter_actionable validated)) ∧
    List.Sorted (fun a b => digest_key b ≤ digest_key a)
      (filter_and_build_digest validated) ∧
    ((filter_and_build_digest validated).length ≤ 15) ∧
    ((∀ a ∈ validated, digest_category a = Js.str "finance" ∨
        digest_category a = Js.str "tech" ∨ digest_category a = Js.str "govt") →
      (digest_order (filter_and_build_digest validated)).Perm
        (filter_and_build_digest validated) ∧
      (digest_entries (filter_and_build_digest validated)).map Prod.fst =
        List.range' 1 (digest_order (filter_and_build_digest validated)).length) := by
  refine ⟨?_, ?_, pySortDesc_stable _ _, ?_, ?_, ?_, ?_⟩
  · intro a ha
    unfold filter_actionable
    rw [List.mem_filter]
    constructor
    · intro hmem
      have hp := hmem.2
      rw [Bool.and_eq_true] at hp
      exact ⟨by simpa using hp.1, hp.2⟩
    · intro hp
      refine ⟨ha, ?_⟩
      rw [Bool.and_eq_true]
      exact ⟨by simp [hp.1], hp.2⟩
  · intro a
    unfold cc_upi_boost
    cases hi : isStr (dgetD a "category" Js.null) "finance" with
    | false =>
      simp only [hi, Bool.not_false, if_pos]
      exact ⟨le_refl 0, by norm_num, fun hz => absurd rfl hz⟩
    | true =>
      simp only [hi, Bool.not_true, Bool.false_eq_true, if_false]
      refine ⟨le_min (by positivity) (by norm_num), min_le_right _ _, ?_⟩
      intro _
      exact (isStr_dgetD_iff a "category" "finance").mp hi
  · unfold pySortDesc
    exact List.perm_insertionSort _ _
  · unfold filter_and_build_digest
    have hs : List.Sorted (fun a b => digest_key b ≤ digest_key a)
        (pySortDesc digest_key (filter_actionable validated)) := by
      unfold pySortDesc
      haveI : IsTotal Dict (fun a b => digest_key b ≤ digest_key a) :=
        ⟨fun a b => le_total (digest_key b) (digest_key a)⟩
      haveI : IsTrans Dict (fun a b => digest_key b ≤ digest_key a) :=
        ⟨fun a b c hab hbc => le_trans hbc hab⟩
      exact List.sorted_insertionSort _ _
    exact hs.sublist (List.take_sublist _ _)
  · unfold filter_and_build_digest MAX_DIGEST_ITEMS
    rw [List.length_take]
    exact min_le_left _ _
  · intro hcat
    have hsub : ∀ a ∈ filter_and_build_digest validated, a ∈ validated := by
      intro a ha
      unfold filter_and_build_digest pySortDesc at ha
      have h1 := List.mem_of_mem_take ha
      have h2 := (List.perm_insertionSort _ _).mem_iff.mp h1
      unfold filter_actionable at h2
      exact (List.mem_filter.mp h2).1
    refine ⟨digest_order_perm _ (fun a ha => hcat a (hsub a ha)), ?_⟩
    unfold digest_entries
    exact enumFrom_map_fst_eq_range _ 1

/-- Witness for C4 at a four-item validated list exercising the filter,
the cap and the category grouping. -/
theorem C4_witness :
    (digest_order (filter_and_build_digest
      [[("validation_status", Js.str "conflicting"), ("is_actionable", Js.bool true),
        ("category", Js.str "tech")],
       [("validation_status", Js.str "verified"), ("is_actionable", Js.bool true),
        ("category", Js.str "govt"), ("credibility_score", Js.num 80)],
       [("validation_status", Js.str "verified"), ("is_actionable", Js.bool true),
        ("category", Js.str "finance"), ("credibility_score", Js.num 60)]])).Perm
      (filter_and_build_digest
      [[("validation_status", Js.str "conflicting"), ("is_actionable", Js.bool true),
        ("category", Js.str "tech")],
       [("validation_status", Js.str "verified"), ("is_actionable", Js.bool true),
        ("category", Js.str "govt"), ("credibility_score", Js.num 80)],
       [("validation_status", Js.str "verified"), ("is_actionable", Js.bool true),
        ("category", Js.str "finance"), ("credibility_score", Js.num 60)]]) := by
  have h := C4_digest_pipeline
    [[("validation_status", Js.str "conflicting"), ("is_actionable", Js.bool true),
      ("category", Js.str "tech")],
     [("validation_status", Js.str "verified"), ("is_actionable", Js.bool true),
      ("category", Js.str "govt"), ("credibility_score", Js.num 80)],
     [("validation_status", Js.str "verified"), ("is_actionable", Js.bool true),
      ("category", Js.str "finance"), ("credibility_score", Js.num 60)]]
  refine (h.2.2.2.2.2.2 ?_).1
  intro a ha
  unfold digest_category
  simp only [List.mem_cons] at ha
  rcases ha with rfl | rfl | rfl | ha0
  · exact Or.inr (Or.inl rfl)
  · exact Or.inr (Or.inr rfl)
  · exact Or.inl rfl
  · exact absurd ha0 (List.not_mem_nil a)

/- ------------------------------------------------------------------
Joining lemmas for the message splitter
------------------------------------------------------------------ -/

theorem intercalate_one {α : Type} (sep a : List α) : List.intercalate sep [a] = a := by
  simp [List.intercalate, List.intersperse]

theorem intercalate_two {α : Type} (sep a b : List α) (l : List (List α)) :
    List.intercalate sep (a :: b :: l) = a ++ sep ++ List.intercalate sep (b :: l) := by
  simp [List.intercalate, List.intersperse, List.append_assoc]

theorem intercalate_cons_ne {α : Type} (sep a : List α) (l : List (List α)) (h : l ≠ []) :
    List.intercalate sep (a :: l) = a ++ sep ++ List.intercalate sep l := by
  cases l with
  | nil => exact absurd rfl h
  | cons b t => exact intercalate_two sep a b t

theorem intercalate_glue {α : Type} (sep a b : List α) (l : List (List α)) :
    List.intercalate sep ((a ++ sep ++ b) :: l) =
      a ++ sep ++ List.intercalate sep (b :: l) := by
  cases l with
  | nil => simp [intercalate_one, List.append_assoc]
  | cons c t =>
    rw [intercalate_two, intercalate_two]
    simp [List.append_assoc]

theorem pyStrip_eq_self (l : List Char)
    (h1 : ∀ hd, l.head? = some hd → pyIsSpace hd = false)
    (h2 : ∀ lst, l.getLast? = some lst → pyIsSpace lst = false) :
    pyStrip l = l := by
  unfold pyStrip
  cases l with
  | nil => rfl
  | cons c rest =>
    have hc : pyIsSpace c = false := h1 c rfl
    rw [List.dropWhile_cons, if_neg (by simp [hc])]
    have hlast : ∀ lst, (c :: rest).reverse.head? = some lst → pyIsSpace lst = false := by
      intro lst hl
      apply h2
      rwa [List.head?_reverse] at hl
    cases hr : (c :: rest).reverse with
    | nil => simp at hr
    | cons d ds =>
      have hd : pyIsSpace d = false := hlast d (by rw [hr]; rfl)
      have hdw : List.dropWhile pyIsSpace (d :: ds) = d :: ds := by
        rw [List.dropWhile_cons, if_neg (by simp [hd])]
      rw [hdw, ← hr, List.reverse_reverse]

theorem pySplitSep_ne_nil (l : List Char) : pySplitSep l ≠ [] := by
  cases l with
  | nil => simp [pySplitSep]
  | cons c rest =>
    cases rest with
    | nil => simp [pySplitSep]
    | cons c2 rest2 =>
      simp only [pySplitSep]
      split
      · simp
      · split <;> simp

theorem intercalate_pySplitSep : ∀ l : List Char, List.intercalate tgSep (pySplitSep l) = l
  | [] => by simp [pySplitSep, intercalate_one]
  | [c] => by simp [pySplitSep, intercalate_one]
  | c1 :: c2 :: rest => by
    by_cases hsep : c1 = '\n' ∧ c2 = '\n'
    · simp only [pySplitSep, if_pos hsep]
      rw [intercalate_cons_ne _ _ _ (pySplitSep_ne_nil rest),
        intercalate_pySplitSep rest]
      simp [tgSep, hsep.1, hsep.2]
    · simp only [pySplitSep, if_neg hsep]
      have hrec := intercalate_pySplitSep (c2 :: rest)
      cases hm : pySplitSep (c2 :: rest) with
      | nil => exact absurd hm (pySplitSep_ne_nil _)
      | cons p ps =>
        rw [hm] at hrec
        cases ps with
        | nil =>
          rw [intercalate_one] at hrec
          rw [intercalate_one, hrec]
        | cons q qs =>
          rw [intercalate_two] at hrec
          rw [intercalate_two]
          simp only [List.cons_append, List.append_assoc] at hrec ⊢
          rw [hrec]

theorem pySplitSep_no_newline : ∀ l : List Char, (∀ c ∈ l, c ≠ '\n') → pySplitSep l = [l]
  | [], _ => rfl
  | [c], _ => rfl
  | c1 :: c2 :: rest, h => by
    have hns : ¬(c1 = '\n' ∧ c2 = '\n') := by
      intro hc
      exact h c1 (by simp) hc.1
    simp only [pySplitSep, if_neg hns]
    rw [pySplitSep_no_newline (c2 :: rest) (fun c hc => h c (List.mem_cons_of_mem _ hc))]

/- ------------------------------------------------------------------
Chunk-size invariants of the message splitter
------------------------------------------------------------------ -/

theorem hardSplit_chunk_le (limit : Nat) (hpos : 0 < limit) (l : List Char) :
    ∀ c ∈ hardSplit limit l, c.length ≤ limit := by
  by_cases h : l.length ≤ limit ∨ limit = 0
  · rw [hardSplit, if_pos h]
    intro c hc
    rcases h with h | h
    · rw [List.mem_singleton] at hc
      rw [hc]
      exact h
    · omega
  · rw [hardSplit, if_neg h]
    intro c hc
    rcases List.mem_cons.mp hc with rfl | hc2
    · rw [List.length_take]
      exact min_le_left _ _
    · exact hardSplit_chunk_le limit hpos (l.drop limit) c hc2
termination_by l.length
decreasing_by
  simp only [List.length_drop]
  omega

theorem splitLoop_chunk_le (limit : Nat) (hpos : 0 < limit) :
    ∀ (paras chunks : List (List Char)) (cur : List Char),
      (∀ c ∈ chunks, c.length ≤ limit) → cur.length ≤ limit →
      ∀ c ∈ splitLoop limit paras chunks cur, c.length ≤ limit := by
  intro paras
  induction paras with
  | nil =>
    intro chunks cur hch hcur c hc
    simp only [splitLoop] at hc
    by_cases he : cur.isEmpty = true
    · rw [if_pos he] at hc
      exact hch c hc
    · rw [if_neg he] at hc
      rcases List.mem_append.mp hc with h | h
      · exact hch c h
      · rw [List.mem_singleton] at h
        rw [h]
        exact hcur
  | cons para rest ih =>
    intro chunks cur hch hcur c hc
    simp only [splitLoop] at hc
    have hch1 : ∀ c2 ∈ (if cur.isEmpty then chunks else chunks ++ [cur]), c2.length ≤ limit := by
      intro c2 hc2
      by_cases he : cur.isEmpty = true
      · rw [if_pos he] at hc2
        exact hch c2 hc2
      · rw [if_neg he] at hc2
        rcases List.mem_append.mp hc2 with h | h
        · exact hch c2 h
        · rw [List.mem_singleton] at h
          rw [h]
          exact hcur
    by_cases hb : (if cur.isEmpty then para else pyStrip (cur ++ tgSep ++ para)).length ≤ limit
    · rw [if_pos hb] at hc
      exact ih chunks _ hch hb c hc
    · rw [if_neg hb] at hc
      by_cases hp : limit < para.length
      · rw [if_pos hp] at hc
        refine ih _ [] ?_ (by simp) c hc
        intro c2 hc2
        rcases List.mem_append.mp hc2 with h | h
        · exact hch1 c2 h
        · exact hardSplit_chunk_le limit hpos para c2 h
      · rw [if_neg hp] at hc
        exact ih _ para hch1 (by omega) c hc

/- ------------------------------------------------------------------
Round trip of the message splitter on well-formed paragraphs
------------------------------------------------------------------ -/

/-- What it means for a paragraph not to trigger the lossy paths of the
splitter: nonempty, within the limit, and free of stray edge whitespace. -/
def goodPara (limit : Nat) (p : List Char) : Prop :=
  p ≠ [] ∧ p.length ≤ limit ∧
    (∀ hd, p.head? = some hd → pyIsSpace hd = false) ∧
    (∀ lst, p.getLast? = some lst → pyIsSpace lst = false)

theorem splitLoop_join (limit : Nat) :
    ∀ (paras : List (List Char)) (chunks : List (List Char)) (cur : List Char),
      cur ≠ [] →
      (∀ hd, cur.head? = some hd → pyIsSpace hd = false) →
      (∀ lst, cur.getLast? = some lst → pyIsSpace lst = false) →
      (∀ p ∈ paras, goodPara limit p) →
      ∃ res, splitLoop limit paras chunks cur = chunks ++ res ∧ res ≠ [] ∧
        List.intercalate tgSep res = List.intercalate tgSep (cur :: paras) := by
  intro paras
  induction paras with
  | nil =>
    intro chunks cur hne _ _ _
    refine ⟨[cur], ?_, by simp, rfl⟩
    simp only [splitLoop]
    rw [if_neg (by simp [List.isEmpty_iff, hne])]
  | cons para rest ih =>
    intro chunks cur hne hhd hlst hgood
    have hg := hgood para (List.mem_cons_self _ _)
    have hgrest : ∀ p ∈ rest, goodPara limit p :=
      fun p hp => hgood p (List.mem_cons_of_mem _ hp)
    have hcurE : cur.isEmpty = false := by
      cases cur with
      | nil => exact absurd rfl hne
      | cons x xs => rfl
    have hstrip : pyStrip (cur ++ tgSep ++ para) = cur ++ tgSep ++ para := by
      apply pyStrip_eq_self
      · intro hd hh
        cases cur with
        | nil => exact absurd rfl hne
        | cons x xs =>
          simp only [List.cons_append, List.head?_cons, Option.some.injEq] at hh
          rw [← hh]
          exact hhd x rfl
      · intro lst hl
        rw [List.getLast?_append_of_ne_nil _ hg.1] at hl
        exact hg.2.2.2 lst hl
    have hheadB : ∀ hd, (cur ++ tgSep ++ para).head? = some hd → pyIsSpace hd = false := by
      intro hd hh
      cases cur with
      | nil => exact absurd rfl hne
      | cons x xs =>
        simp only [List.cons_append, List.head?_cons, Option.some.injEq] at hh
        rw [← hh]
        exact hhd x rfl
    have hlastB : ∀ lst, (cur ++ tgSep ++ para).getLast? = some lst → pyIsSpace lst = false := by
      intro lst hl
      rw [List.getLast?_append_of_ne_nil _ hg.1] at hl
      exact hg.2.2.2 lst hl
    by_cases hb : (cur ++ tgSep ++ para).length ≤ limit
    · have hne2 : cur ++ tgSep ++ para ≠ [] := by
        cases cur with
        | nil => exact absurd rfl hne
        | cons x xs => simp
      obtain ⟨res, he, hr, hj⟩ := ih chunks (cur ++ tgSep ++ para) hne2 hheadB hlastB hgrest
      refine ⟨res, ?_, hr, ?_⟩
      · simp only [splitLoop, hcurE, Bool.false_eq_true, if_false, hstrip]
        rw [if_pos hb]
        exact he
      · rw [hj, intercalate_glue]
        exact (intercalate_two _ _ _ _).symm
    · obtain ⟨res, he, hr, hj⟩ := ih (chunks ++ [cur]) para hg.1 hg.2.2.1 hg.2.2.2 hgrest
      refine ⟨cur :: res, ?_, by simp, ?_⟩
      · simp only [splitLoop, hcurE, Bool.false_eq_true, if_false, hstrip]
        have hple := hg.2.1
        rw [if_neg hb, if_neg (by omega : ¬limit < para.length)]
        rw [he, List.append_assoc]
        rfl
      · rw [intercalate_cons_ne _ _ _ hr, hj]
        exact (intercalate_two _ _ _ _).symm

/- ------------------------------------------------------------------
C7
------------------------------------------------------------------ -/

/-- C7 (amended): no chunk produced by the splitter exceeds the 3800
character transport limit; and whenever every paragraph of the body is
nonempty, within the limit, and free of edge whitespace, concatenating the
chunks with the paragraph separators restored reproduces the body exactly.
Without those conditions the round trip can fail, because hard-splitting
an oversized paragraph introduces separators that were not in the body
(see the counterexample) and edge whitespace or empty paragraphs are
collapsed. -/
theorem C7_chunk_bound_roundtrip (text : List Char) :
    (∀ c ∈ split_telegram_message text, c.length ≤ MAX_TG_CHARS) ∧
    ((∀ p ∈ pySplitSep text, goodPara MAX_TG_CHARS p) →
      List.intercalate tgSep (split_telegram_message text) = text) := by
  constructor
  · intro c hc
    unfold split_telegram_message at hc
    by_cases hlen : text.length ≤ MAX_TG_CHARS
    · rw [if_pos hlen, List.mem_singleton] at hc
      rw [hc]
      exact hlen
    · rw [if_neg hlen] at hc
      exact splitLoop_chunk_le MAX_TG_CHARS (by decide) (pySplitSep text) [] []
        (fun c2 hc2 => absurd hc2 (List.not_mem_nil _)) (by simp) c hc
  · intro hgood
    unfold split_telegram_message
    by_cases hlen : text.length ≤ MAX_TG_CHARS
    · rw [if_pos hlen, intercalate_one]
    · rw [if_neg hlen]
      cases hsp : pySplitSep text with
      | nil => exact absurd hsp (pySplitSep_ne_nil text)
      | cons p ps =>
        have hgp : goodPara MAX_TG_CHARS p :=
          hgood p (by rw [hsp]; exact List.mem_cons_self _ _)
        have hgps : ∀ q ∈ ps, goodPara MAX_TG_CHARS q :=
          fun q hq => hgood q (by rw [hsp]; exact List.mem_cons_of_mem _ hq)
        obtain ⟨res, he, _, hj⟩ :=
          splitLoop_join MAX_TG_CHARS ps [] p hgp.1 hgp.2.2.1 hgp.2.2.2 hgps
        have hfirst : splitLoop MAX_TG_CHARS (p :: ps) [] [] =
            splitLoop MAX_TG_CHARS ps [] p := by
          simp only [splitLoop, List.isEmpty_nil, if_true]
          rw [if_pos hgp.2.1]
        rw [hfirst, he, List.nil_append, hj, ← hsp]
        exact intercalate_pySplitSep text

/-- C7 counterexample: a body that is one 3801-character paragraph is
hard-split into two chunks, and rejoining them with the separator restored
does not reproduce the body, so the round-trip conjunct of the claim fails
while the size bound still holds. -/
theorem C7_counterexample :
    List.intercalate tgSep (split_telegram_message (List.replicate 3801 'x')) ≠
      List.replicate 3801 'x' := by
  have hsp : pySplitSep (List.replicate 3801 'x') = [List.replicate 3801 'x'] := by
    apply pySplitSep_no_newline
    intro c hc
    rw [List.eq_of_mem_replicate hc]
    decide
  have hsplit : split_telegram_message (List.replicate 3801 'x') =
      [List.replicate 3800 'x', ['x']] := by
    unfold split_telegram_message MAX_TG_CHARS
    rw [if_neg (by rw [List.length_replicate]; decide), hsp]
    simp only [splitLoop, List.isEmpty_nil, if_true]
    rw [if_neg (by rw [List.length_replicate]; decide)]
    rw [if_pos (by rw [List.length_replicate]; decide :
      (3800 : Nat) < (List.replicate 3801 'x').length)]
    simp only [splitLoop, List.isEmpty_nil, if_true, List.nil_append]
    rw [hardSplit, if_neg (by rw [List.length_replicate]; decide)]
    rw [List.take_replicate, List.drop_replicate]
    rw [show (3800 : Nat) ⊓ 3801 = 3800 from by decide,
      show (3801 : Nat) - 3800 = 1 from by decide]
    rw [hardSplit, if_pos (Or.inl (by rw [List.length_replicate]; decide))]
    rw [List.replicate_one]
  rw [hsplit, intercalate_two, intercalate_one]
  intro h
  have hlen2 := congrArg List.length h
  simp only [List.length_append, List.length_replicate, tgSep, List.length_cons,
    List.length_nil] at hlen2
  omega

/-- Witness for C7 at a short two-character body. -/
theorem C7_witness :
    (∀ c ∈ split_telegram_message "hi".data, c.length ≤ MAX_TG_CHARS) ∧
    List.intercalate tgSep (split_telegram_message "hi".data) = "hi".data := by
  have h := C7_chunk_bound_roundtrip "hi".data
  refine ⟨h.1, h.2 ?_⟩
  intro p hp
  have hpe : p = ['h', 'i'] := by
    have he : pySplitSep "hi".data = [['h', 'i']] := rfl
    rw [he] at hp
    simpa using hp
  rw [hpe]
  refine ⟨by simp, by decide, ?_, ?_⟩
  · intro hd hh
    simp only [List.head?_cons, Option.some.injEq] at hh
    rw [← hh]
    decide
  · intro lst hl
    rw [show (['h', 'i'] : List Char).getLast? = some 'i' from rfl] at hl
    simp only [Option.some.injEq] at hl
    rw [← hl]
    decide
